import Mathlib

/-!
Verification of the document-audit core of the bail-bonds UI repository.

The development shallowly embeds the pure core of three scripts:

* scripts/eval_windows.py        (window classification over booking dates)
* scripts/atlas_source_audit.py  (fact derivation: booking datetime, bond amount)
* scripts/atlas_categorical_field_audit.py (flattening, field statistics,
  categorical classification)

Machine floats are modelled as exact rationals together with the IEEE special
values inf, -inf and nan (type PFloat); timezone-aware instants are modelled
as rational epoch seconds.  Documents are modelled by the inductive type JVal
mirroring the BSON/JSON values the scripts traverse; float leaves are
restricted to finite rationals (none of the audited code paths construct or
depend on non-finite leaf values).
-/

/-- Kernel-computable rational addition; provably equal to + on ℚ (see
qAdd_eq below).  The library operations carry an irreducibility attribute,
so the embedding computes through these wrappers instead. -/
def qAdd (a b : ℚ) : ℚ := mkRat (a.num * b.den + b.num * a.den) (a.den * b.den)

/-- Kernel-computable rational subtraction; provably equal to - on ℚ. -/
def qSub (a b : ℚ) : ℚ := mkRat (a.num * b.den - b.num * a.den) (a.den * b.den)

/-- Kernel-computable rational multiplication; provably equal to * on ℚ. -/
def qMul (a b : ℚ) : ℚ := mkRat (a.num * b.num) (a.den * b.den)

/-- Kernel-computable rational division; provably equal to / on ℚ. -/
def qDiv (a b : ℚ) : ℚ := Rat.divInt (a.num * b.den) (a.den * b.num)

/-- Model of a Python float result: a finite rational, or one of the special
values produced for example by float of the strings inf, -inf, nan. -/
inductive PFloat where
  | fin (q : ℚ)
  | inf
  | ninf
  | nan
deriving Repr, DecidableEq

/-- Python float addition on the PFloat model (nan absorbs; inf + -inf = nan). -/
def PFloat.add : PFloat → PFloat → PFloat
  | .nan, _ => .nan
  | _, .nan => .nan
  | .fin a, .fin b => .fin (qAdd a b)
  | .fin _, .inf => .inf
  | .inf, .fin _ => .inf
  | .inf, .inf => .inf
  | .inf, .ninf => .nan
  | .ninf, .inf => .nan
  | .ninf, .fin _ => .ninf
  | .fin _, .ninf => .ninf
  | .ninf, .ninf => .ninf

/-- Python builtin sum over a list of floats; the accumulator starts at the
integer 0, exactly as sum does. -/
def PFloat.sumList (xs : List PFloat) : PFloat := xs.foldl PFloat.add (.fin 0)

/-- A PFloat is non-negative when it is a non-negative rational or +inf.
The values nan and -inf are not non-negative. -/
def PFloat.isNonneg : PFloat → Bool
  | .fin q => decide (0 ≤ q)
  | .inf => true
  | .ninf => false
  | .nan => false

/-- Semi-structured document values as the audited scripts see them: the
scalar kinds distinguished by the scripts type dispatch, plus lists and
string-keyed objects.  A datetime value carries its instant as rational epoch
seconds (for a naive datetime: its wall-clock read as UTC) and a flag telling
whether it is timezone aware. -/
inductive JVal where
  | null
  | bool (b : Bool)
  | int (n : Int)
  | float (q : ℚ)
  | str (s : String)
  | dt (epoch : ℚ) (aware : Bool)
  | oid (s : String)
  | list (xs : List JVal)
  | obj (kvs : List (String × JVal))
deriving Repr

/-- Timezone-carrying datetime as produced by the parsing helpers: rational
epoch seconds plus an awareness flag. -/
structure Dt where
  epoch : ℚ
  aware : Bool
deriving Repr, DecidableEq

/-- Python dict lookup on an association list.  Python dicts have unique keys,
so taking the first binding is exact for every object a script builds. -/
def dictGet (kvs : List (String × JVal)) (k : String) : Option JVal :=
  match kvs with
  | [] => none
  | (k2, v) :: rest => if k2 = k then some v else dictGet rest k

/-- Python truthiness of a document value (used by guards such as
if not x). -/
def pyFalsy : JVal → Bool
  | .null => true
  | .bool b => !b
  | .int n => n = 0
  | .float q => q = 0
  | .str s => s = ""
  | .dt _ _ => false
  | .oid _ => false
  | .list xs => xs.isEmpty
  | .obj kvs => kvs.isEmpty

/-- Embeds is_number from atlas_source_audit.py line 54: isinstance of int or
float; Python bools are ints, so they count.  Float leaves are finite in the
model, hence the nan test is vacuous here. -/
def is_number : JVal → Bool
  | .bool _ => true
  | .int _ => true
  | .float _ => true
  | _ => false

/-- Python str applied to a document value, as far as the audited code paths
can observe it.  The list, object and datetime placeholders stand for Python
reprs that begin with a bracket or contain time separators; every audited
consumer only date-parses or int-parses the result, and those reprs fail to
parse exactly as the placeholders do.  The datetime branch is unreachable in
the embedded code because callers dispatch datetime leaves earlier. -/
def pyStr : JVal → String
  | .str s => s
  | .int n => toString n
  | .bool b => if b then "True" else "False"
  | .float q => toString q
  | .null => "None"
  | .dt _ _ => "<datetime>"
  | .oid s => s
  | .list _ => "[...]"
  | .obj _ => "\x7b...\x7d"

/-- ASCII whitespace test used by the string models. -/
def isSpaceChar (c : Char) : Bool := c = ' ' ∨ c = '\t' ∨ c = '\n' ∨ c = '\r'

/-- Model of str.strip on ASCII whitespace. -/
def trimChars (cs : List Char) : List Char :=
  ((cs.dropWhile isSpaceChar).reverse.dropWhile isSpaceChar).reverse

/-- Model of str.upper for the ASCII strings the scripts compare against. -/
def upperChars (cs : List Char) : List Char := cs.map Char.toUpper

/-- Model of str.replace of the single character Z by +00:00. -/
def replaceZchars (cs : List Char) : List Char :=
  cs.flatMap (fun c => if c = 'Z' then "+00:00".data else [c])

/-- Model of str.split on a one-character separator: separators delimit
groups, and adjacent separators produce empty groups. -/
def splitOnChar (sep : Char) : List Char → List (List Char)
  | [] => [[]]
  | c :: rest =>
    match splitOnChar sep rest with
    | acc :: groups => if c = sep then [] :: acc :: groups else (c :: acc) :: groups
    | [] => [[c]]

/-- Digits of a decimal literal folded to a natural number. -/
def digitsToNat (cs : List Char) : Nat :=
  cs.foldl (fun a c => 10 * a + (c.toNat - 48)) 0

/-- Model of Python int applied to a string: optional surrounding ASCII
whitespace, an optional sign, then at least one digit.  Underscore grouping
is omitted; no audited input uses it. -/
def pyIntOfString (s : String) : Option Int :=
  let cs := s.data.dropWhile isSpaceChar
  let core := fun (sign : Int) (ds : List Char) =>
    let (digits, rest) := ds.span Char.isDigit
    let restTrim := rest.dropWhile isSpaceChar
    if digits.isEmpty ∨ ¬ restTrim.isEmpty then none
    else some (sign * (digitsToNat digits : Int))
  match cs with
  | '-' :: ds => core (-1) ds
  | '+' :: ds => core 1 ds
  | ds => core 1 ds

/-- Case-insensitive match of a literal ASCII word at the head of a character
list, returning the remainder on success. -/
def matchWordCI (w : List Char) (cs : List Char) : Option (List Char) :=
  match w, cs with
  | [], rest => some rest
  | _ :: _, [] => none
  | a :: ws, c :: rest => if c.toLower = a then matchWordCI ws rest else none

/-- Unsigned decimal literal of Python float syntax: digits with an optional
fractional part, or a leading dot with digits, then an optional exponent.
Returns the rational value and the unconsumed remainder. -/
def parseDecimal (cs : List Char) : Option (ℚ × List Char) :=
  let (intDigits, r1) := cs.span Char.isDigit
  let withFrac : Option (ℚ × List Char) :=
    match r1 with
    | '.' :: r2 =>
      let (fracDigits, r3) := r2.span Char.isDigit
      if intDigits.isEmpty ∧ fracDigits.isEmpty then none
      else some (qAdd (digitsToNat intDigits : ℚ)
                   (mkRat (digitsToNat fracDigits) ((10 : Nat) ^ fracDigits.length)), r3)
    | _ =>
      if intDigits.isEmpty then none
      else some ((digitsToNat intDigits : ℚ), r1)
  match withFrac with
  | none => none
  | some (base, r4) =>
    match r4 with
    | 'e' :: r5 | 'E' :: r5 =>
      let (sgn, r6) : ((Int → Int) × List Char) :=
        match r5 with
        | '-' :: r7 => (fun n => -n, r7)
        | '+' :: r7 => (fun n => n, r7)
        | _ => (fun n => n, r5)
      let (expDigits, r8) := r6.span Char.isDigit
      if expDigits.isEmpty then some (base, r4)
      else
        let e := sgn (digitsToNat expDigits : Int)
        if 0 ≤ e then some (qMul base (((10 : Nat) ^ e.toNat : Nat) : ℚ), r8)
        else some (qDiv base (((10 : Nat) ^ (-e).toNat : Nat) : ℚ), r8)
    | _ => some (base, r4)

/-- Model of the Python float builtin applied to a string: optional
surrounding whitespace, an optional sign, then either one of the special
words inf, infinity, nan (case-insensitive) or a decimal literal.  Underscore
digit grouping is omitted; no audited input uses it, and it cannot occur in a
digit-free string. -/
def pyFloatOfString (s : String) : Option PFloat :=
  let cs := s.data.dropWhile isSpaceChar
  let done := fun (rest : List Char) (v : PFloat) =>
    if (rest.dropWhile isSpaceChar).isEmpty then some v else none
  let unsigned := fun (neg : Bool) (body : List Char) =>
    match matchWordCI "infinity".data body with
    | some rest => done rest (if neg then .ninf else .inf)
    | none =>
      match matchWordCI "inf".data body with
      | some rest => done rest (if neg then .ninf else .inf)
      | none =>
        match matchWordCI "nan".data body with
        | some rest => done rest .nan
        | none =>
          match parseDecimal body with
          | some (q, rest) => done rest (.fin (if neg then -q else q))
          | none => none
  match cs with
  | '-' :: body => unsigned true body
  | '+' :: body => unsigned false body
  | body => unsigned false body

/-- Model of the Python float builtin applied to a document value.  Kinds on
which float raises (and every audited caller catches) are mapped to none. -/
def pyFloat : JVal → Option PFloat
  | .bool b => some (.fin (if b then 1 else 0))
  | .int n => some (.fin (n : ℚ))
  | .float q => some (.fin q)
  | .str s => pyFloatOfString s
  | _ => none

/-- One attempted match of the money regex at the current position:
an optional sign directly followed by a digit, then greedily digits or
commas, an optional dot, and trailing digits.  This mirrors the pattern
in atlas_source_audit.py line 228 ([-+]?\d[\d,]*\.?\d*). -/
def matchNumCore : List Char → Option (List Char)
  | [] => none
  | c :: cs =>
    if c.isDigit then
      let (mid, r1) := cs.span (fun d => d.isDigit ∨ d = ',')
      match r1 with
      | '.' :: r2 =>
        let (tail, _) := r2.span Char.isDigit
        some (c :: mid ++ '.' :: tail)
      | _ => some (c :: mid)
    else none

/-- Match of the money regex at one position, sign included. -/
def matchNumAt (cs : List Char) : Option (List Char) :=
  match cs with
  | c :: rest =>
    if c = '-' ∨ c = '+' then (matchNumCore rest).map (fun m => c :: m)
    else matchNumCore cs
  | [] => none

/-- Leftmost match of the money regex over a whole string, as re.search
finds it. -/
def reFirstNumber : List Char → Option (List Char)
  | [] => none
  | c :: cs =>
    match matchNumAt (c :: cs) with
    | some m => some m
    | none => reFirstNumber cs

/-- Thousands-separator removal, mirroring replace of comma by nothing. -/
def stripCommas (cs : List Char) : List Char := cs.filter (fun c => c ≠ ',')

/-- Leap-year test of the proleptic Gregorian calendar. -/
def isLeapYear (y : Nat) : Bool := y % 4 = 0 ∧ (y % 100 ≠ 0 ∨ y % 400 = 0)

/-- Days in a month of the proleptic Gregorian calendar. -/
def daysInMonth (y m : Nat) : Nat :=
  if m = 2 then (if isLeapYear y then 29 else 28)
  else if m = 4 ∨ m = 6 ∨ m = 9 ∨ m = 11 then 30
  else 31

/-- Days from 1970-01-01 to the given civil date (Gregorian), for years from
1 onward; the standard era/year-of-era computation. -/
def daysFromCivil (y m d : Nat) : Int :=
  let y2 := if m ≤ 2 then y - 1 else y
  let era := y2 / 400
  let yoe := y2 % 400
  let mp := if 2 < m then m - 3 else m + 9
  let doy := (153 * mp + 2) / 5 + d - 1
  let doe := yoe * 365 + yoe / 4 - yoe / 100 + doy
  ((era * 146097 + doe : Nat) : Int) - 719468

/-- Validity of a civil date exactly as the Python datetime constructor
checks it (years 1 to 9999). -/
def validDate (y m d : Int) : Bool :=
  1 ≤ y ∧ y ≤ 9999 ∧ 1 ≤ m ∧ m ≤ 12 ∧ 1 ≤ d ∧ d ≤ (daysInMonth y.toNat m.toNat : Int)

/-- Validity of a time of day. -/
def validTime (h mi s : Int) : Bool := 0 ≤ h ∧ h ≤ 23 ∧ 0 ≤ mi ∧ mi ≤ 59 ∧ 0 ≤ s ∧ s ≤ 59

/-- Epoch seconds of a validated civil date-time, UTC. -/
def epochOf (y m d h mi s : Nat) : ℚ :=
  ((daysFromCivil y m d * 86400 + (h : Int) * 3600 + (mi : Int) * 60 + (s : Int) : Int) : ℚ)

/-- Construction of a UTC datetime with constructor-style validation,
as datetime(y, m, d, ...) performs it. -/
def mkDatetimeUTC (y m d h mi s : Int) : Option Dt :=
  if validDate y m d ∧ validTime h mi s then
    some ⟨epochOf y.toNat m.toNat d.toNat h.toNat mi.toNat s.toNat, true⟩
  else none

/-- Greedy bounded digit field of a strptime directive: consumes between one
and maxLen leading digits. -/
def takeDigitField (maxLen : Nat) (cs : List Char) : Option (Nat × List Char) :=
  let (run, rest) := cs.span Char.isDigit
  if run.isEmpty then none
  else some (digitsToNat (run.take maxLen), run.drop maxLen ++ rest)

/-- Exact-character literal of a strptime format. -/
def takeLit (c : Char) (cs : List Char) : Option (List Char) :=
  match cs with
  | c2 :: rest => if c2 = c then some rest else none
  | [] => none

/-- Model of strptime with format %Y-%m-%d: year, dash, month, dash, day,
end of input, then constructor validation. -/
def strptimeYmd (s : String) : Option Dt := do
  let (y, r1) ← takeDigitField 4 s.data
  let r2 ← takeLit '-' r1
  let (m, r3) ← takeDigitField 2 r2
  let r4 ← takeLit '-' r3
  let (d, r5) ← takeDigitField 2 r4
  if r5.isEmpty then mkDatetimeUTC y m d 0 0 0 else none

/-- Model of strptime with format %m/%d/%Y. -/
def strptimeMdy (s : String) : Option Dt := do
  let (m, r1) ← takeDigitField 2 s.data
  let r2 ← takeLit '/' r1
  let (d, r3) ← takeDigitField 2 r2
  let r4 ← takeLit '/' r3
  let (y, r5) ← takeDigitField 4 r4
  if r5.isEmpty then mkDatetimeUTC y m d 0 0 0 else none

/-- Shared date-time body of the two ISO strptime formats. -/
def strptimeIsoBody (cs : List Char) : Option (Dt × List Char) := do
  let (y, r1) ← takeDigitField 4 cs
  let r2 ← takeLit '-' r1
  let (m, r3) ← takeDigitField 2 r2
  let r4 ← takeLit '-' r3
  let (d, r5) ← takeDigitField 2 r4
  let r6 ← takeLit 'T' r5
  let (h, r7) ← takeDigitField 2 r6
  let r8 ← takeLit ':' r7
  let (mi, r9) ← takeDigitField 2 r8
  let r10 ← takeLit ':' r9
  let (sec, r11) ← takeDigitField 2 r10
  match mkDatetimeUTC y m d h mi sec with
  | some t => some (t, r11)
  | none => none

/-- Model of strptime with format %Y-%m-%dT%H:%M:%S. -/
def strptimeIsoT (s : String) : Option Dt := do
  let (t, rest) ← strptimeIsoBody s.data
  if rest.isEmpty then some t else none

/-- Model of strptime with format %Y-%m-%dT%H:%M:%SZ. -/
def strptimeIsoTZ (s : String) : Option Dt := do
  let (t, rest) ← strptimeIsoBody s.data
  match rest with
  | ['Z'] => some t
  | _ => none

/-- Two-digit field of the fromisoformat grammar (exactly two digits). -/
def takeTwoDigits (cs : List Char) : Option (Nat × List Char) :=
  match cs with
  | a :: b :: rest =>
    if a.isDigit ∧ b.isDigit then some (digitsToNat [a, b], rest) else none
  | _ => none

/-- Optional seconds-and-fraction tail of a fromisoformat time. -/
def isoSecondsFrac (cs : List Char) : Option (ℚ × List Char) :=
  match cs with
  | ':' :: rest => do
    let (sec, r1) ← takeTwoDigits rest
    match r1 with
    | '.' :: r2 =>
      let (fracDigits, r3) := r2.span Char.isDigit
      if fracDigits.isEmpty then none
      else some (qAdd (sec : ℚ)
                   (mkRat (digitsToNat fracDigits) ((10 : Nat) ^ fracDigits.length)), r3)
    | _ => some ((sec : ℚ), r1)
  | _ => some (0, cs)

/-- Model of datetime.fromisoformat restricted to the separator-punctuated
grammar: a YYYY-MM-DD date, an optional time introduced by T or a space with
HH:MM and optional seconds and fraction, then an optional numeric UTC offset
sign HH:MM with optional seconds.  Callers replace a trailing Z before the
call, so a Z form never reaches this model.  The digit-only basic forms of
newer Python versions are omitted: no audited input is in basic form, and
every such input fails both in Python and here. -/
def pyFromIso (s : String) : Option Dt := do
  let cs := s.data
  let (y, r1) ← takeDigitField 4 cs
  let r2 ← takeLit '-' r1
  let (m, r3) ← takeTwoDigits r2
  let r4 ← takeLit '-' r3
  let (d, r5) ← takeTwoDigits r4
  let contTime : List Char → Option (ℚ × List Char) := fun cs2 => do
    let (h, t1) ← takeTwoDigits cs2
    let t2 ← takeLit ':' t1
    let (mi, t3) ← takeTwoDigits t2
    let (secq, t4) ← isoSecondsFrac t3
    if h ≤ 23 ∧ mi ≤ 59 ∧ secq < 60 then
      some (qAdd ((h * 3600 + mi * 60 : Nat) : ℚ) secq, t4)
    else none
  let timePart : Option (ℚ × List Char) :=
    match r5 with
    | 'T' :: r6 => contTime r6
    | ' ' :: r6 => contTime r6
    | _ => some (0, r5)
  match timePart with
  | none => none
  | some (tsecs, r7) =>
    let base : Option Dt :=
      if validDate y m d ∧ tsecs < 86400 then
        some ⟨qAdd ((daysFromCivil y m d * 86400 : Int) : ℚ) tsecs, false⟩
      else none
    match base, r7 with
    | none, _ => none
    | some t, [] => some t
    | some t, sgn :: r8 =>
      if sgn = '+' ∨ sgn = '-' then do
        let (oh, u1) ← takeTwoDigits r8
        let u2 ← takeLit ':' u1
        let (om, u3) ← takeTwoDigits u2
        let (osec, u4) ←
          match u3 with
          | ':' :: u5 => (takeTwoDigits u5).map (fun p => (p.1, p.2))
          | _ => some ((0 : Nat), u3)
        if u4.isEmpty then
          let off : Int := oh * 3600 + om * 60 + osec
          some ⟨qSub t.epoch ((if sgn = '-' then -off else off : Int) : ℚ), true⟩
        else none
      else none

/-- Sentinel tokens treated as null by the atlas date parser. -/
def dateSentinels : List String := ["BLACK", "N/A", "NULL"]

/-- Epoch branch of _to_datetime (lines 184-189): scale milliseconds down
when the magnitude exceeds 1e12, then apply the fromtimestamp range check
(years 1 to 9999). -/
def epochBranch (x : ℚ) : Option Dt :=
  let sec := if x > 1000000000000 then qDiv x 1000 else x
  if -62135596800 ≤ sec ∧ sec < 253402300800 then some ⟨sec, true⟩ else none

/-- Embeds _to_datetime from atlas_source_audit.py lines 177-205.  A naive
datetime leaf gets tzinfo replaced by UTC (its stored epoch already reads the
wall clock as UTC); an int or float is an epoch in seconds, or in
milliseconds when above 1e12; fromtimestamp range errors yield none;
otherwise the value is stringified, stripped, checked against sentinels,
tried against four strptime formats in order, and finally handed to
fromisoformat with Z rewritten to +00:00. -/
def toDatetime (x : JVal) : Option Dt :=
  match x with
  | .null => none
  | .dt e _ => some ⟨e, true⟩
  | .bool b => epochBranch (if b then 1 else 0)
  | .int n => epochBranch (n : ℚ)
  | .float q => epochBranch q
  | v =>
    let cs := trimChars (pyStr v).data
    let s := String.mk cs
    if cs.isEmpty ∨ upperChars cs ∈ dateSentinels.map String.data then none
    else
      match strptimeYmd s with
      | some t => some t
      | none =>
        match strptimeMdy s with
        | some t => some t
        | none =>
          match strptimeIsoT s with
          | some t => some t
          | none =>
            match strptimeIsoTZ s with
            | some t => some t
            | none =>
              match pyFromIso (String.mk (replaceZchars cs)) with
              | some t => some ⟨t.epoch, true⟩
              | none => none

/-- Embeds parse_date_any from eval_windows.py lines 36-52: falsy input is
none; a datetime leaf passes through with naive values marked UTC; a
ten-character string with dashes in positions 4 and 7 is split and fed to the
datetime constructor, likewise the slash form month/day/year; anything else
falls back to fromisoformat with Z rewritten.  An exception inside a taken
branch aborts to none without trying later branches. -/
def parse_date_any (x : JVal) : Option Dt :=
  if pyFalsy x then none
  else
    match x with
    | .dt e _ => some ⟨e, true⟩
    | v =>
      let cs := (pyStr v).data
      if cs.length = 10 ∧ cs.getD 4 ' ' = '-' ∧ cs.getD 7 ' ' = '-' then
        match (splitOnChar '-' cs).map (fun g => pyIntOfString (String.mk g)) with
        | [some y, some m, some d] => mkDatetimeUTC y m d 0 0 0
        | _ => none
      else if cs.length = 10 ∧ cs.getD 2 ' ' = '/' ∧ cs.getD 5 ' ' = '/' then
        match (splitOnChar '/' cs).map (fun g => pyIntOfString (String.mk g)) with
        | [some m, some d, some y] => mkDatetimeUTC y m d 0 0 0
        | _ => none
      else
        pyFromIso (String.mk (replaceZchars cs))

/-- Keys of MongoDB extended-JSON numeric wrappers, from
atlas_source_audit.py line 175.  The source holds them in a Python set whose
iteration order is unspecified; the model fixes the declaration order, which
is observable only on objects carrying several wrapper keys at once. -/
def NUMBER_KEYS : List String := ["$numberInt", "$numberDouble", "$numberLong", "$numberDecimal"]

mutual
/-- Embeds the _walk closure of _get_dotted from atlas_source_audit.py lines
239-252: none vanishes, a value at the end of the parts list is returned
whole (a terminal list is not exploded), an intermediate list fans out over
its elements, and an intermediate object steps through the next key or
vanishes when the key is absent. -/
def dottedWalk : JVal → List String → List JVal
  | .null, _ => []
  | v, [] => [v]
  | .list xs, parts => dottedWalkL xs parts
  | .obj kvs, k :: rest => dottedWalkO kvs k rest
  | _, _ :: _ => []
/-- Fan-out of dottedWalk over the elements of an intermediate list. -/
def dottedWalkL : List JVal → List String → List JVal
  | [], _ => []
  | x :: xs, parts => dottedWalk x parts ++ dottedWalkL xs parts
/-- Key step of dottedWalk inside an object: first binding wins, a missing
key yields nothing. -/
def dottedWalkO : List (String × JVal) → String → List String → List JVal
  | [], _, _ => []
  | (k2, v) :: kvs, k, rest => if k2 = k then dottedWalk v rest else dottedWalkO kvs k rest
end

/-- Embeds _get_dotted from atlas_source_audit.py lines 236-253: split the
path on dots and walk. -/
def get_dotted (doc : JVal) (path : String) : List JVal :=
  dottedWalk doc ((splitOnChar '.' path.data).map String.mk)

mutual
/-- Embeds _extract_first_numeric from atlas_source_audit.py lines 207-234:
an object is probed for extended-JSON wrapper keys whose payload the float
builtin accepts; a list is tried element by element, first success wins; a
number (Python bools included) is floated; a string is searched for the
first signed decimal number, commas stripped; everything else is none. -/
def extract_first_numeric : JVal → Option PFloat
  | .obj kvs => NUMBER_KEYS.findSome? (fun k => (dictGet kvs k).bind pyFloat)
  | .list xs => extractFirstNumericL xs
  | .str s =>
    match reFirstNumber s.data with
    | some m => pyFloatOfString (String.mk (stripCommas m))
    | none => none
  | v => if is_number v then pyFloat v else none
/-- Element loop of extract_first_numeric over a list value. -/
def extractFirstNumericL : List JVal → Option PFloat
  | [] => none
  | x :: xs =>
    match extract_first_numeric x with
    | some v => some v
    | none => extractFirstNumericL xs
end

/-- Embeds DATE_FIELDS_BY_COLLECTION from atlas_source_audit.py lines
149-160; unknown collection names fall back to the empty list exactly as
dict.get does. -/
def DATE_FIELDS_BY_COLLECTION : String → List String
  | "galveston_events" => ["booked_at", "arrest_date", "booking_date"]
  | "jefferson_events" => ["booked_at", "arrest_date", "booking_date"]
  | "brazoria_inmates" => ["booking_date_iso", "booking_date", "first_seen_at", "detail_fetched_at"]
  | "fortbend_inmates" => ["booking_date_iso", "booking_date", "detail_fetched_at", "first_seen_at"]
  | "harris_bond" => ["file_date"]
  | "harris_nafiling" => ["file_date"]
  | "harris_misfel" => ["file_date"]
  | "galveston_persons" => ["booked_at", "booking_date"]
  | "persons" => ["booked_at", "booking_date"]
  | _ => []

/-- Embeds BOND_FIELDS_BY_COLLECTION from atlas_source_audit.py lines
162-173. -/
def BOND_FIELDS_BY_COLLECTION : String → List String
  | "galveston_events" => ["total_bond", "bonds.amount"]
  | "jefferson_events" => ["total_bond", "bonds.amount"]
  | "brazoria_inmates" => ["bond_total", "charges.bond/type"]
  | "fortbend_inmates" => ["charges.bail_amount_int", "charges.bail_amount"]
  | "harris_bond" => ["bond_amount"]
  | "harris_nafiling" => ["bond_amount"]
  | "harris_misfel" => ["bond_amount"]
  | "galveston_persons" => []
  | "persons" => []
  | _ => []

/-- First value of a resolved list that parses to a datetime, mirroring the
inner loop of derive_booking_datetime (a datetime object is always truthy,
so the if d guard is exactly parse success). -/
def firstParsedDate (vals : List JVal) : Option Dt := vals.findSome? toDatetime

/-- Field loop of derive_booking_datetime over the candidate list. -/
def deriveBookingGo (doc : JVal) : List String → Option Dt
  | [] => none
  | k :: ks =>
    match firstParsedDate (get_dotted doc k) with
    | some d => some d
    | none => deriveBookingGo doc ks

/-- Embeds derive_booking_datetime from atlas_source_audit.py lines 255-263. -/
def derive_booking_datetime (collName : String) (doc : JVal) : Option Dt :=
  deriveBookingGo doc (DATE_FIELDS_BY_COLLECTION collName)

/-- Numeric values extracted from every element a candidate field resolves
to, in document order (the numeric_vals list of derive_bond_amount). -/
def numericValsOf (doc : JVal) (k : String) : List PFloat :=
  (get_dotted doc k).filterMap extract_first_numeric

/-- Field loop of derive_bond_amount: the first field with at least one
extracted numeric returns the float of the sum of all of them. -/
def deriveBondGo (doc : JVal) : List String → Option PFloat
  | [] => none
  | k :: ks =>
    let nv := numericValsOf doc k
    if nv.isEmpty then deriveBondGo doc ks else some (PFloat.sumList nv)

/-- Embeds derive_bond_amount from atlas_source_audit.py lines 265-278. -/
def derive_bond_amount (collName : String) (doc : JVal) : Option PFloat :=
  deriveBondGo doc (BOND_FIELDS_BY_COLLECTION collName)

/-- Embeds hours_ago from eval_windows.py lines 54-55 with the reference
instant made explicit: the Python body calls now_utc() itself, so each call
reads the clock anew; callers of this model pass the clock value read at
that call. -/
def hours_ago (now epoch : ℚ) : ℚ := qDiv (qSub now epoch) 3600

/-- Embeds bucket_0_24_48_72 from eval_windows.py lines 79-87, with the
clock value read by its hours_ago call passed explicitly. -/
def bucket_0_24_48_72 (now : ℚ) (book : Option Dt) : Option String :=
  match book with
  | none => none
  | some d =>
    let h := hours_ago now d.epoch
    if h < 0 then none
    else if h ≤ 24 then some "24h"
    else if h ≤ 48 then some "48h"
    else if h ≤ 72 then some "72h"
    else none

/-- Per-item window decision of window_bucket_counts from
atlas_source_audit.py lines 293-308, against a fixed now already converted
to UTC.  The derived datetimes fed to it are timezone aware, so astimezone
is the identity on the modelled epoch. -/
def window_bucket_classify (nowUtc : ℚ) (d : Dt) : Option String :=
  if nowUtc < d.epoch then none
  else if qSub nowUtc 86400 ≤ d.epoch then some "24h"
  else if qSub nowUtc 172800 ≤ d.epoch then some "48h"
  else if qSub nowUtc 259200 ≤ d.epoch then some "72h"
  else none

/-- Count and running sum of one window bucket. -/
structure BucketAgg where
  count : Nat
  sum : PFloat
deriving Repr, DecidableEq

/-- The three window buckets of the reports. -/
structure WindowCounts where
  h24 : BucketAgg
  h48 : BucketAgg
  h72 : BucketAgg
deriving Repr, DecidableEq

/-- All-zero initial buckets. -/
def emptyWindowCounts : WindowCounts := ⟨⟨0, .fin 0⟩, ⟨0, .fin 0⟩, ⟨0, .fin 0⟩⟩

/-- Bucket update helper shared by the two evaluation folds. -/
def addToBucket (w : WindowCounts) (name : String) (v : PFloat) : WindowCounts :=
  if name = "24h" then { w with h24 := ⟨w.h24.count + 1, w.h24.sum.add v⟩ }
  else if name = "48h" then { w with h48 := ⟨w.h48.count + 1, w.h48.sum.add v⟩ }
  else if name = "72h" then { w with h72 := ⟨w.h72.count + 1, w.h72.sum.add v⟩ }
  else w

/-- Embeds the accumulation loop of window_bucket_counts from
atlas_source_audit.py lines 280-309: now is a parameter computed once by the
caller and held fixed across the whole list; a missing date is skipped, and
a missing bond contributes zero through the b or 0.0 idiom. -/
def window_bucket_counts (pairs : List (Option Dt × Option PFloat)) (nowUtc : ℚ) : WindowCounts :=
  pairs.foldl
    (fun w p =>
      match p.1 with
      | none => w
      | some d =>
        match window_bucket_classify nowUtc d with
        | none => w
        | some name => addToBucket w name (p.2.getD (.fin 0)))
    emptyWindowCounts

/-- Python dict get on a document value; a non-object never reaches these
call sites in the scripts, and yields the default. -/
def pyDocGet (doc : JVal) (k : String) : Option JVal :=
  match doc with
  | .obj kvs => dictGet kvs k
  | _ => none

/-- Values Python counts as missing in the pick_first guard, via equality
with None, the empty string and the one-space string. -/
def isMissingVal : JVal → Bool
  | .null => true
  | .str s => s = "" ∨ s = " "
  | _ => false

/-- Dotted branch of pick_first: step through nested dicts only; any
non-dict intermediate or absent key aborts to none, exactly like the
val = None plus break of the source. -/
def dictOnlyWalk (doc : JVal) (parts : List String) : Option JVal :=
  parts.foldl
    (fun acc p =>
      match acc with
      | some (.obj kvs) => dictGet kvs p
      | _ => none)
    (some doc)

/-- Embeds pick_first from eval_windows.py lines 57-73: candidate keys in
order, dotted keys walked through dicts only, and a value equal to None, the
empty string or a single space counts as missing; the default is none. -/
def pick_first (doc : JVal) : List String → Option JVal
  | [] => none
  | k :: ks =>
    let val? :=
      if k.data.any (fun c => c = '.') then
        dictOnlyWalk doc ((splitOnChar '.' k.data).map String.mk)
      else pyDocGet doc k
    match val? with
    | some v => if isMissingVal v then pick_first doc ks else some v
    | none => pick_first doc ks

/-- Date candidate lists of SOURCE_COLL from eval_windows.py lines 17-27 for
the four single-collection counties; the harris entry holds two collection
configurations whose date list is file_date in both, and is not needed by
the properties below. -/
def SOURCE_DATE_FIELDS : String → List String
  | "brazoria" => ["booking_date_iso", "booking_date", "first_seen_at"]
  | "fortbend" => ["booking_date_iso", "detail_fetched_at", "first_seen_at"]
  | "galveston" => ["booked_at", "arrest_date"]
  | "jefferson" => ["booked_at", "arrest_date"]
  | _ => []

/-- Booking-date derivation of eval_sources from eval_windows.py lines
129-130: pick the first present non-missing candidate value, then parse that
one value. -/
def evalSourcesBookingDate (dateKeys : List String) (doc : JVal) : Option Dt :=
  parse_date_any ((pick_first doc dateKeys).getD .null)

/-- Bond coercion of eval_simple from eval_windows.py lines 107-113: absent
or None bond_amount falls back to bond with default integer 0; a value equal
to None or the empty string becomes 0.0, anything else goes through float
with exceptions collapsing to 0.0. -/
def simpleBondValue (doc : JVal) : PFloat :=
  let bond : JVal :=
    match pyDocGet doc "bond_amount" with
    | some .null | none => (pyDocGet doc "bond").getD (.int 0)
    | some v => v
  match bond with
  | .null => .fin 0
  | .str "" => .fin 0
  | v => (pyFloat v).getD (.fin 0)

/-- One document step of eval_simple from eval_windows.py lines 103-115,
with the clock value read by its bucket call passed explicitly. -/
def evalSimpleStep (now : ℚ) (w : WindowCounts) (doc : JVal) : WindowCounts :=
  let bdate := parse_date_any ((pyDocGet doc "booking_date").getD .null)
  match bucket_0_24_48_72 now bdate with
  | none => w
  | some name => addToBucket w name (simpleBondValue doc)

/-- Document loop of eval_simple with an explicit clock: the source body
reaches now_utc() through hours_ago once per document, so document number i
is classified against the clock value at its own processing step. -/
def evalSimpleGo (clock : Nat → ℚ) (i : Nat) (w : WindowCounts) : List JVal → WindowCounts
  | [] => w
  | doc :: rest => evalSimpleGo clock (i + 1) (evalSimpleStep (clock i) w doc) rest

/-- Embeds the per-collection accumulation of eval_simple from
eval_windows.py lines 95-116 over one document stream, with the wall clock
modelled as a function from processing step to instant. -/
def eval_simple (clock : Nat → ℚ) (docs : List JVal) : WindowCounts :=
  evalSimpleGo clock 0 emptyWindowCounts docs

/-- Dotted key joining of flatten from atlas_categorical_field_audit.py
line 40: an empty parent key gives the bare key. -/
def joinKey (parentKey k : String) : String :=
  if parentKey = "" then k else parentKey ++ "." ++ k

mutual
/-- Embeds flatten from atlas_categorical_field_audit.py lines 35-51 up to
the final dict construction: nested dicts extend through dotted keys, lists
extend through index-qualified keys and then append the synthetic list
marker pair (path plus square brackets mapping to True), and every other
value is a single pair at the current key. -/
def flatten : JVal → String → List (String × JVal)
  | .obj kvs, parentKey => flattenObj kvs parentKey
  | .list xs, parentKey => flattenList xs 0 parentKey ++ [(parentKey ++ "[]", .bool true)]
  | v, parentKey => [(parentKey, v)]
/-- Key loop of flatten over the bindings of a dict. -/
def flattenObj : List (String × JVal) → String → List (String × JVal)
  | [], _ => []
  | (k, v) :: kvs, parentKey => flatten v (joinKey parentKey k) ++ flattenObj kvs parentKey
/-- Index loop of flatten over the elements of a list. -/
def flattenList : List JVal → Nat → String → List (String × JVal)
  | [], _, _ => []
  | x :: xs, i, parentKey =>
    flatten x (parentKey ++ "[" ++ Nat.repr i ++ "]") ++ flattenList xs (i + 1) parentKey
end

/-- One insertion of dict construction over a pair list: an existing key
keeps its position and takes the later value, a new key is appended. -/
def pyDictInsert (m : List (String × JVal)) (k : String) (v : JVal) : List (String × JVal) :=
  if m.any (fun kv => kv.1 = k) then m.map (fun kv => if kv.1 = k then (k, v) else kv)
  else m ++ [(k, v)]

/-- Python dict built from a pair list, as dict(items) does at the end of
flatten: first-insertion order, last value wins. -/
def pyDict (items : List (String × JVal)) : List (String × JVal) :=
  items.foldl (fun m kv => pyDictInsert m kv.1 kv.2) []

mutual
/-- Flatten-paths at which a document holds a list value, with the same path
construction as flatten. -/
def listPaths : JVal → String → List String
  | .obj kvs, parentKey => listPathsObj kvs parentKey
  | .list xs, parentKey => parentKey :: listPathsList xs 0 parentKey
  | _, _ => []
/-- Key loop of listPaths over dict bindings. -/
def listPathsObj : List (String × JVal) → String → List String
  | [], _ => []
  | (k, v) :: kvs, parentKey => listPaths v (joinKey parentKey k) ++ listPathsObj kvs parentKey
/-- Index loop of listPaths over list elements. -/
def listPathsList : List JVal → Nat → String → List String
  | [], _, _ => []
  | x :: xs, i, parentKey =>
    listPaths x (parentKey ++ "[" ++ Nat.repr i ++ "]") ++ listPathsList xs (i + 1) parentKey
end

/-- Embeds type_name from atlas_categorical_field_audit.py lines 53-72; a
datetime value reaches the final type name fallback. -/
def cat_type_name : JVal → String
  | .null => "null"
  | .bool _ => "bool"
  | .int _ => "int"
  | .float _ => "float"
  | .str _ => "str"
  | .oid _ => "objectid"
  | .dt _ _ => "datetime"
  | .list _ => "list"
  | .obj _ => "dict"

/-- Normalized distinct-value keys of the values counter.  Python dict keys
identify numerically equal values, so bools and numbers collapse to one
numeric key; an ObjectId is stringified by the source before insertion. -/
inductive NormVal where
  | pynone
  | num (q : ℚ)
  | str (s : String)
  | dt (epoch : ℚ) (aware : Bool)
deriving Repr, DecidableEq

/-- Normalization of a scalar value to its counter key; complex kinds are
filtered out by the caller before normalization. -/
def normValue : JVal → NormVal
  | .null => .pynone
  | .bool b => .num (if b then 1 else 0)
  | .int n => .num (n : ℚ)
  | .float q => .num q
  | .str s => .str s
  | .oid s => .str s
  | .dt e a => .dt e a
  | _ => .str ""

/-- Counter increment on an association list: an existing key keeps its
position, a new key is appended with count one. -/
def bump {α : Type} [DecidableEq α] (m : List (α × Nat)) (k : α) : List (α × Nat) :=
  match m with
  | [] => [(k, 1)]
  | (k2, c) :: rest => if k2 = k then (k2, c + 1) :: rest else (k2, c) :: bump rest k

/-- Counter lookup with default zero. -/
def counterGet {α : Type} [DecidableEq α] (m : List (α × Nat)) (k : α) : Nat :=
  match m with
  | [] => 0
  | (k2, c) :: rest => if k2 = k then c else counterGet rest k

/-- Kinds skipped by distinct-value tracking (dict, list, bytes in the
source; binary values do not occur in the embedded value grammar). -/
def isComplexKind : JVal → Bool
  | .obj _ => true
  | .list _ => true
  | _ => false

/-- Per-field running statistics of analyze_collection from
atlas_categorical_field_audit.py lines 125-131. -/
structure FieldState where
  types : List (String × Nat)
  nonNullCount : Nat
  docsWithField : Nat
  values : List (NormVal × Nat)
  tooManyUniques : Bool
deriving Repr, DecidableEq

/-- Fresh per-field statistics, as the defaultdict constructs them. -/
def initFieldState : FieldState := ⟨[], 0, 0, [], false⟩

/-- Null test of a document value. -/
def isNullVal : JVal → Bool
  | .null => true
  | _ => false

/-- Embeds one (path, value) update of the statistics loop of
analyze_collection, lines 142-163: type histogram and non-null count always
advance; the document-presence count advances once per path per document,
which is every visit because the flattened dict has unique keys; value
tracking is skipped entirely once the too-many-uniques flag is set or for
complex kinds, and an insertion that pushes the distinct count past 5000
clears the tracked values and sets the flag. -/
def updateField (st : FieldState) (val : JVal) : FieldState :=
  let types2 := bump st.types (cat_type_name val)
  let nn2 := if isNullVal val then st.nonNullCount else st.nonNullCount + 1
  let dw2 := st.docsWithField + 1
  if st.tooManyUniques then ⟨types2, nn2, dw2, st.values, st.tooManyUniques⟩
  else if isComplexKind val then ⟨types2, nn2, dw2, st.values, st.tooManyUniques⟩
  else
    let values2 := bump st.values (normValue val)
    if 5000 < values2.length then ⟨types2, nn2, dw2, [], true⟩
    else ⟨types2, nn2, dw2, values2, st.tooManyUniques⟩

/-- Statistics-table update for one flattened (path, value) pair; the table
is an association list in first-insertion order, as a defaultdict iterates. -/
def statsApply (stats : List (String × FieldState)) (path : String) (val : JVal) :
    List (String × FieldState) :=
  match stats with
  | [] => [(path, updateField initFieldState val)]
  | (p2, st) :: rest =>
    if p2 = path then (p2, updateField st val) :: rest
    else (p2, st) :: statsApply rest path val

/-- One document of the statistics loop: flatten, build the Python dict,
skip the empty path, and fold every pair into the table. -/
def processDoc (stats : List (String × FieldState)) (doc : JVal) : List (String × FieldState) :=
  (pyDict (flatten doc "")).foldl
    (fun acc kv => if kv.1 = "" then acc else statsApply acc kv.1 kv.2) stats

/-- Statistics of a whole document sample. -/
def analyzeDocs (docs : List JVal) : List (String × FieldState) :=
  docs.foldl processDoc []

/-- Table lookup for a field path. -/
def statsGet (stats : List (String × FieldState)) (path : String) : Option FieldState :=
  match stats with
  | [] => none
  | (p2, st) :: rest => if p2 = path then some st else statsGet rest path

/-- Threshold configuration of analyze_collection; the field defaults are
the argparse defaults of atlas_categorical_field_audit.py lines 270-276
(max_unique 25, max_unique_ratio 0.1, min_count 25, small-int detection off,
small_int_max_unique 12).  The 0.1 literal is carried as the exact rational
one tenth; the scripts float rounding is observable only at ties of the
ratio comparison, which no audited property touches. -/
structure Params where
  maxUnique : Nat := 25
  maxUniqueRatio : ℚ := mkRat 1 10
  minCount : Nat := 25
  smallIntAsCat : Bool := false
  smallIntMaxUnique : Nat := 12
deriving Repr

/-- The argparse-default configuration. -/
def defaultParams : Params := {}

/-- Reasons recorded by the classification rules, abstracted from the
interpolated reason strings of lines 197-223 to tags. -/
inductive Reason where
  | tooManyUniquesToCount
  | boolField
  | uniqueAbs
  | uniqueRatioLow
  | smallIntCode
  | overriddenByIdentifierName
deriving Repr, DecidableEq

/-- Per-field verdict row (the classification-relevant part of row_common). -/
structure Verdict where
  uniqueValues : Option Nat
  uniqueRatio : Option ℚ
  categorical : Bool
  reasons : List Reason
deriving Repr, DecidableEq

/-- Character-list prefix test. -/
def startsWithChars : List Char → List Char → Bool
  | [], _ => true
  | _ :: _, [] => false
  | a :: as, b :: bs => a = b && startsWithChars as bs

/-- Substring containment on character lists. -/
def containsSub (needle hay : List Char) : Bool :=
  match hay with
  | [] => needle.isEmpty
  | _ :: rest => startsWithChars needle hay || containsSub needle rest

/-- Lower-casing for the identifier-marker check. -/
def lowerChars (cs : List Char) : List Char := cs.map Char.toLower

/-- Identifier-marker test of line 221: the lowered path contains one of
_id, uuid, guid. -/
def pathHasIdMarker (path : String) : Bool :=
  containsSub "_id".data (lowerChars path.data)
    || containsSub "uuid".data (lowerChars path.data)
    || containsSub "guid".data (lowerChars path.data)

/-- Rule 1 of the per-field decision (lines 200-203): enough boolean
occurrences decide categorical. -/
def rule1 (p : Params) (st : FieldState) (rs0 : List Reason) : Bool × List Reason :=
  if p.minCount ≤ counterGet st.types "bool" then (true, rs0 ++ [.boolField]) else (false, rs0)

/-- Rule 2 of the per-field decision (lines 205-212): when not yet
categorical and the unique count is known, the absolute unique-count bound
fires first, else the unique-ratio bound when the ratio is known. -/
def rule2 (p : Params) (uv : Option Nat) (ur : Option ℚ) (x : Bool × List Reason) :
    Bool × List Reason :=
  if x.1 then x
  else
    match uv with
    | some u =>
      if u ≤ p.maxUnique then (true, x.2 ++ [.uniqueAbs])
      else
        match ur with
        | some r => if r ≤ p.maxUniqueRatio then (true, x.2 ++ [.uniqueRatioLow]) else x
        | none => x
    | none => x

/-- Rule 3 of the per-field decision (lines 215-218): optional small-int
code detection, gated on min_count int occurrences and a known unique
count. -/
def rule3 (p : Params) (st : FieldState) (uv : Option Nat) (x : Bool × List Reason) :
    Bool × List Reason :=
  if ¬ x.1 ∧ p.smallIntAsCat then
    match uv with
    | some u =>
      if p.minCount ≤ counterGet st.types "int" ∧ u ≤ p.smallIntMaxUnique then
        (true, x.2 ++ [.smallIntCode])
      else x
    | none => x
  else x

/-- Rule 4 of the per-field decision (lines 220-224): an identifier-marker
path is forced non-categorical, recording an override reason when a prior
rule had fired. -/
def rule4 (path : String) (x : Bool × List Reason) : Bool × List Reason :=
  if pathHasIdMarker path then
    (false, if x.1 then x.2 ++ [.overriddenByIdentifierName] else x.2)
  else x

/-- Embeds the per-field decision of analyze_collection, lines 184-225:
unique count and ratio are null under the too-many-uniques flag; then the
four rules run in source order. -/
def decide_categorical (p : Params) (path : String) (st : FieldState) : Verdict :=
  let nonNull := st.nonNullCount
  let uv : Option Nat := if st.tooManyUniques then none else some st.values.length
  let ur : Option ℚ :=
    if st.tooManyUniques then none
    else if 0 < nonNull then some (qDiv (st.values.length : ℚ) ((max 1 nonNull : Nat) : ℚ))
    else none
  let rs0 : List Reason := if st.tooManyUniques then [.tooManyUniquesToCount] else []
  let r := rule4 path (rule3 p st uv (rule2 p uv ur (rule1 p st rs0)))
  ⟨uv, ur, r.1, r.2⟩

mutual
/-- Absence of any numeric signal in a value, the recursive reading of an
input containing no digits: no digit character in any string, no numeric
leaf (a number always carries digits, and Python bools are ints), and no
extended-JSON wrapper binding whose payload the float builtin accepts (such
as an infinity or NaN spelling).  Datetime leaves carry digits textually and
are excluded. -/
def noNumericSignal : JVal → Bool
  | .null => true
  | .bool _ => false
  | .int _ => false
  | .float _ => false
  | .dt _ _ => false
  | .str s => s.data.all (fun c => !c.isDigit)
  | .oid s => s.data.all (fun c => !c.isDigit)
  | .list xs => noNumericSignalL xs
  | .obj kvs =>
      noNumericSignalO kvs
        && NUMBER_KEYS.all (fun k => ((dictGet kvs k).bind pyFloat).isNone)
/-- Element conjunction of noNumericSignal over a list. -/
def noNumericSignalL : List JVal → Bool
  | [] => true
  | x :: xs => noNumericSignal x && noNumericSignalL xs
/-- Binding conjunction of noNumericSignal over object values. -/
def noNumericSignalO : List (String × JVal) → Bool
  | [] => true
  | (_, v) :: kvs => noNumericSignal v && noNumericSignalO kvs
end

/-- Occurrences of a key among flattened items. -/
def countKey : List (String × JVal) → String → Nat
  | [], _ => 0
  | kv :: rest, k => (if kv.1 = k then 1 else 0) + countKey rest k

/-- Document of the C2 witness: no total_bond, two charges under bonds. -/
def docC2 : JVal :=
  .obj [("bonds", .list [.obj [("amount", .int 100)], .obj [("amount", .str "$1,234.50")]])]

/-- Document of the C3 counterexample: the first candidate field holds an
unparseable string, the second a clean date. -/
def docC3 : JVal := .obj [("booked_at", .str "junk"), ("arrest_date", .str "2024-01-05")]

/-- Document of the C4 run: one booking date at midnight UTC Jan 5 2024. -/
def docC4 : JVal := .obj [("booking_date", .str "2024-01-05")]

/-- Clock of the C4 run: the pass starts 23 hours after the booking instant
and the second document is processed two hours later. -/
def clockC4 : Nat → ℚ := fun i => if i = 0 then 1704495600 else 1704502800

/-- Field statistics accumulated from the single-occurrence document of the
C7 counterexample. -/
def stC7 : FieldState := ⟨[("str", 1)], 1, 1, [(.str "a", 1)], false⟩

/-- Parameters of the C7 small-int witness: thresholds arranged so that only
the small-int rule can fire. -/
def smallIntParamsC7 : Params :=
  { maxUnique := 2, maxUniqueRatio := mkRat 0 1, minCount := 25,
    smallIntAsCat := true, smallIntMaxUnique := 12 }

/-- Field statistics of the C7 small-int witness: thirty int occurrences
over five distinct codes. -/
def stIntC7 : FieldState :=
  ⟨[("int", 30)], 30, 30,
   [(.num 1, 6), (.num 2, 6), (.num 3, 6), (.num 4, 6), (.num 5, 6)], false⟩

/-- Field statistics of the C7 bool witness. -/
def stBoolC7 : FieldState := ⟨[("bool", 25)], 25, 25, [(.num 1, 25)], false⟩

/-- Document of the C8 witness: one non-negative bond amount. -/
def docC8 : JVal := .obj [("bond_amount", .int 350)]

/-- A field state already past the uniques cap, as the run leaves it:
cleared values and the permanent flag. -/
def stFlagged : FieldState := ⟨[("str", 3)], 3, 3, [], true⟩

/-- A synthetic values counter holding n distinct numeric keys. -/
def mkNormVals (n : Nat) : List (NormVal × Nat) :=
  (List.range n).map (fun (i : Nat) => (NormVal.num (i : ℚ), 1))

/-- A field state sitting exactly at the uniques cap, one insertion away
from the guardrail. -/
def stTrig : FieldState := ⟨[("str", 5000)], 5000, 5000, mkNormVals 5000, false⟩

/-- Document of the C10 witness: one singleton list. -/
def docC10w : JVal := .obj [("a", .list [.int 1])]

/-- Document of the C10 counterexample: an empty list at key a followed by a
literal key that collides with the synthetic marker path. -/
def docC10c : JVal := .obj [("a", .list []), ("a[]", .int 0)]

set_option maxRecDepth 8000

theorem qAdd_eq (a b : ℚ) : qAdd a b = a + b := (Rat.add_def' a b).symm

theorem qSub_eq (a b : ℚ) : qSub a b = a - b := (Rat.sub_def' a b).symm

theorem qMul_eq (a b : ℚ) : qMul a b = a * b := by
  rw [Rat.mul_def, Rat.normalize_eq_mkRat]; rfl

theorem qDiv_eq (a b : ℚ) : qDiv a b = a / b := (Rat.div_def' a b).symm

theorem PFloat.add_nonneg {a b : PFloat} (ha : a.isNonneg = true) (hb : b.isNonneg = true) :
    (a.add b).isNonneg = true := by
  cases a <;> cases b <;> simp_all [PFloat.add, PFloat.isNonneg, qAdd_eq]
  linarith

theorem PFloat.sumList_nonneg_aux (xs : List PFloat) (acc : PFloat)
    (hacc : acc.isNonneg = true) (h : ∀ x ∈ xs, x.isNonneg = true) :
    (xs.foldl PFloat.add acc).isNonneg = true := by
  induction xs generalizing acc with
  | nil => simpa using hacc
  | cons x xs ih =>
    simp only [List.foldl_cons]
    exact ih (acc.add x) (PFloat.add_nonneg hacc (h x (by simp)))
      (fun y hy => h y (by simp [hy]))

theorem PFloat.sumList_nonneg (xs : List PFloat) (h : ∀ x ∈ xs, x.isNonneg = true) :
    (PFloat.sumList xs).isNonneg = true :=
  PFloat.sumList_nonneg_aux xs (.fin 0) (by decide) h

/-- C5: temporal extraction maps the string 2024-01-05 to midnight UTC of
January 5 2024 (epoch second 1704412800), maps 01/05/2024 to the same
instant, maps the epoch number 1704412800000 (above 1e12, hence read as
milliseconds) to the same instant, and maps the sentinel BLACK to null; the
date-string parser of eval_windows agrees on the string inputs. -/
theorem C5_temporal_examples :
    toDatetime (.str "2024-01-05") = some ⟨1704412800, true⟩
  ∧ toDatetime (.str "01/05/2024") = some ⟨1704412800, true⟩
  ∧ toDatetime (.int 1704412800000) = some ⟨1704412800, true⟩
  ∧ toDatetime (.str "BLACK") = none
  ∧ parse_date_any (.str "2024-01-05") = some ⟨1704412800, true⟩
  ∧ parse_date_any (.str "01/05/2024") = some ⟨1704412800, true⟩
  ∧ parse_date_any (.str "BLACK") = none := by
  refine ⟨by decide, by decide, by decide, by decide, by decide, by decide, by decide⟩

/-- C4: within one eval_simple pass the reference instant is read from the
clock anew for every document (now_utc is called inside hours_ago), so two
documents with the same booking timestamp land in different buckets when the
clock advances between them; the window_bucket_counts pass of the atlas
auditor holds one fixed now and puts both copies in the same bucket.  The
run processes two copies of a document booked at epoch 1704412800 with the
clock at 23 hours elapsed for the first document and 25 hours elapsed for
the second. -/
theorem C4_eval_simple_now_drift :
    eval_simple clockC4 [docC4, docC4] = ⟨⟨1, .fin 0⟩, ⟨1, .fin 0⟩, ⟨0, .fin 0⟩⟩
  ∧ window_bucket_counts
      [(some ⟨1704412800, true⟩, none), (some ⟨1704412800, true⟩, none)] 1704495600
      = ⟨⟨2, .fin 0⟩, ⟨0, .fin 0⟩, ⟨0, .fin 0⟩⟩ := by
  refine ⟨by decide, by decide⟩

/-- C1: the eval_windows classifier places an instant in exactly one window
or none, measured in elapsed hours h = (now - t) / 3600: the 24h bucket is
0 ≤ h ≤ 24 (both ends inclusive, the future excluded), the 48h bucket is
24 < h ≤ 48, the 72h bucket is 48 < h ≤ 72, and everything with h < 0 or
h > 72 is excluded; the per-item decision of the atlas window pass agrees
with it at every instant. -/
theorem C1_window_bucket_partition (t now : ℚ) :
    (bucket_0_24_48_72 now (some ⟨t, true⟩) = some "24h"
        ↔ 0 ≤ (now - t) / 3600 ∧ (now - t) / 3600 ≤ 24)
  ∧ (bucket_0_24_48_72 now (some ⟨t, true⟩) = some "48h"
        ↔ 24 < (now - t) / 3600 ∧ (now - t) / 3600 ≤ 48)
  ∧ (bucket_0_24_48_72 now (some ⟨t, true⟩) = some "72h"
        ↔ 48 < (now - t) / 3600 ∧ (now - t) / 3600 ≤ 72)
  ∧ (bucket_0_24_48_72 now (some ⟨t, true⟩) = none
        ↔ (now - t) / 3600 < 0 ∨ 72 < (now - t) / 3600)
  ∧ window_bucket_classify now ⟨t, true⟩ = bucket_0_24_48_72 now (some ⟨t, true⟩) := by
  have e1 : hours_ago now t = (now - t) / 3600 := by
    rw [hours_ago, qSub_eq, qDiv_eq]
  have h3600 : (0 : ℚ) < 3600 := by norm_num
  have f1 : (now - t) / 3600 < 0 ↔ now < t := by
    rw [div_lt_iff₀ h3600]; constructor <;> intro <;> linarith
  have f2 : (now - t) / 3600 ≤ 24 ↔ now - 86400 ≤ t := by
    rw [div_le_iff₀ h3600]; constructor <;> intro <;> linarith
  have f3 : (now - t) / 3600 ≤ 48 ↔ now - 172800 ≤ t := by
    rw [div_le_iff₀ h3600]; constructor <;> intro <;> linarith
  have f4 : (now - t) / 3600 ≤ 72 ↔ now - 259200 ≤ t := by
    rw [div_le_iff₀ h3600]; constructor <;> intro <;> linarith
  have eq24 : qSub now 86400 = now - 86400 := by rw [qSub_eq]
  have eq48 : qSub now 172800 = now - 172800 := by rw [qSub_eq]
  have eq72 : qSub now 259200 = now - 259200 := by rw [qSub_eq]
  refine ⟨?_, ?_, ?_, ?_, ?_⟩
  · simp only [bucket_0_24_48_72, e1]
    split_ifs <;> simp_all
  · simp only [bucket_0_24_48_72, e1]
    split_ifs <;> simp_all
    all_goals (intro hh; linarith)
  · simp only [bucket_0_24_48_72, e1]
    split_ifs <;> simp_all
    all_goals (intro hh; linarith)
  · simp only [bucket_0_24_48_72, e1]
    split_ifs <;> simp_all
    all_goals linarith
  · simp only [bucket_0_24_48_72, window_bucket_classify, e1, eq24, eq48, eq72,
      ← f1, ← f2, ← f3, ← f4]

theorem bondGo_skips_empty (doc : JVal) :
    ∀ (pre : List String) (k : String) (post : List String),
      (∀ k2 ∈ pre, (numericValsOf doc k2).isEmpty = true) →
      (numericValsOf doc k).isEmpty = false →
      deriveBondGo doc (pre ++ k :: post) = some (PFloat.sumList (numericValsOf doc k)) := by
  intro pre
  induction pre with
  | nil => intro k post _ hk; simp [deriveBondGo, hk]
  | cons p pre ih =>
    intro k post hpre hk
    have hp : (numericValsOf doc p).isEmpty = true := hpre p (by simp)
    simp only [List.cons_append, deriveBondGo, hp, if_true]
    exact ih k post (fun k2 hmem => hpre k2 (by simp [hmem])) hk

theorem bondGo_all_empty (doc : JVal) :
    ∀ (fields : List String), (∀ k2 ∈ fields, (numericValsOf doc k2).isEmpty = true) →
      deriveBondGo doc fields = none := by
  intro fields
  induction fields with
  | nil => intro; rfl
  | cons p fields ih =>
    intro h
    have hp : (numericValsOf doc p).isEmpty = true := h p (by simp)
    simp only [deriveBondGo, hp, if_true]
    exact ih (fun k2 hmem => h k2 (by simp [hmem]))

/-- C2: money derivation walks the candidate fields of the source schema in
declared order; at the first field whose dotted-path resolution yields at
least one extracted numeric it returns the sum of all numerics of that field
(the later candidates never influence the result), and it returns null when
no candidate field yields a numeric. -/
theorem C2_money_first_field_sum (c : String) (doc : JVal) :
    (∀ (pre : List String) (k : String) (post : List String),
      BOND_FIELDS_BY_COLLECTION c = pre ++ k :: post →
      (∀ k2 ∈ pre, (numericValsOf doc k2).isEmpty = true) →
      (numericValsOf doc k).isEmpty = false →
      derive_bond_amount c doc = some (PFloat.sumList (numericValsOf doc k)))
  ∧ ((∀ k2 ∈ BOND_FIELDS_BY_COLLECTION c, (numericValsOf doc k2).isEmpty = true) →
      derive_bond_amount c doc = none) := by
  constructor
  · intro pre k post hsplit hpre hk
    rw [derive_bond_amount, hsplit]
    exact bondGo_skips_empty doc pre k post hpre hk
  · intro h
    rw [derive_bond_amount]
    exact bondGo_all_empty doc _ h

/-- C2 witness: for the galveston_events profile, a document without
total_bond whose bonds array carries the amounts 100 and the string
1234.50 (with currency formatting) derives the sum 1334.5; the empty
document derives null. -/
theorem C2_money_first_field_sum_witness :
    derive_bond_amount "galveston_events" docC2
      = some (PFloat.sumList (numericValsOf docC2 "bonds.amount"))
  ∧ PFloat.sumList (numericValsOf docC2 "bonds.amount") = .fin (mkRat 2669 2)
  ∧ derive_bond_amount "galveston_events" (.obj []) = none :=
  ⟨(C2_money_first_field_sum "galveston_events" docC2).1 ["total_bond"] "bonds.amount" []
      rfl (by decide) (by decide),
   by decide,
   (C2_money_first_field_sum "galveston_events" (.obj [])).2 (by decide)⟩

theorem bookGo_skips_unparsed (doc : JVal) :
    ∀ (pre : List String) (k : String) (post : List String) (d : Dt),
      (∀ k2 ∈ pre, firstParsedDate (get_dotted doc k2) = none) →
      firstParsedDate (get_dotted doc k) = some d →
      deriveBookingGo doc (pre ++ k :: post) = some d := by
  intro pre
  induction pre with
  | nil => intro k post d _ hk; simp [deriveBookingGo, hk]
  | cons p pre ih =>
    intro k post d hpre hk
    have hp : firstParsedDate (get_dotted doc p) = none := hpre p (by simp)
    simp only [List.cons_append, deriveBookingGo, hp]
    exact ih k post d (fun k2 hmem => hpre k2 (by simp [hmem])) hk

theorem bookGo_all_unparsed (doc : JVal) :
    ∀ (fields : List String), (∀ k2 ∈ fields, firstParsedDate (get_dotted doc k2) = none) →
      deriveBookingGo doc fields = none := by
  intro fields
  induction fields with
  | nil => intro; rfl
  | cons p fields ih =>
    intro h
    have hp : firstParsedDate (get_dotted doc p) = none := h p (by simp)
    simp only [deriveBookingGo, hp]
    exact ih (fun k2 hmem => h k2 (by simp [hmem]))

/-- C3 as amended: the atlas timestamp derivation walks the candidate fields
of the source schema in declared order, and within a field the resolved
values in document order, returning the first value that parses (later
fields are never consulted after a success, and a field whose values all
fail to parse is skipped); the eval_windows source pipeline instead selects
the first present non-missing field before parsing, so when that selected
value fails to parse the derivation returns null without consulting later
candidate fields. -/
theorem C3_timestamp_first_parse :
    (∀ (c : String) (doc : JVal) (pre : List String) (k : String) (post : List String) (d : Dt),
      DATE_FIELDS_BY_COLLECTION c = pre ++ k :: post →
      (∀ k2 ∈ pre, firstParsedDate (get_dotted doc k2) = none) →
      firstParsedDate (get_dotted doc k) = some d →
      derive_booking_datetime c doc = some d)
  ∧ (∀ (c : String) (doc : JVal),
      (∀ k ∈ DATE_FIELDS_BY_COLLECTION c, firstParsedDate (get_dotted doc k) = none) →
      derive_booking_datetime c doc = none)
  ∧ (∀ (dateKeys : List String) (doc : JVal) (v : JVal),
      pick_first doc dateKeys = some v → parse_date_any v = none →
      evalSourcesBookingDate dateKeys doc = none) := by
  refine ⟨?_, ?_, ?_⟩
  · intro c doc pre k post d hsplit hpre hk
    rw [derive_booking_datetime, hsplit]
    exact bookGo_skips_unparsed doc pre k post d hpre hk
  · intro c doc h
    rw [derive_booking_datetime]
    exact bookGo_all_unparsed doc _ h
  · intro dateKeys doc v hpick hparse
    rw [evalSourcesBookingDate, hpick]
    exact hparse

/-- C3 witness: for galveston_events, a document whose booked_at holds an
unparseable string and whose arrest_date holds 2024-01-05 derives the
arrest_date instant through the atlas derivation; a document without any
candidate field derives null; and in the eval_windows pipeline the selected
junk value makes the derivation return null. -/
theorem C3_timestamp_first_parse_witness :
    derive_booking_datetime "galveston_events" docC3 = some ⟨1704412800, true⟩
  ∧ derive_booking_datetime "galveston_events" (.obj []) = none
  ∧ evalSourcesBookingDate ["booked_at", "arrest_date"] docC3 = none :=
  ⟨C3_timestamp_first_parse.1 "galveston_events" docC3 ["booked_at"] "arrest_date"
      ["booking_date"] ⟨1704412800, true⟩ rfl (by decide) (by decide),
   C3_timestamp_first_parse.2.1 "galveston_events" (.obj []) (by decide),
   C3_timestamp_first_parse.2.2 ["booked_at", "arrest_date"] docC3 (.str "junk")
      rfl (by decide)⟩

/-- C3 counterexample to the claim as stated: in the eval_windows source
pipeline (pick_first then parse), the galveston profile on a document whose
first candidate field booked_at holds the unparseable string junk and whose
second candidate field arrest_date parses cleanly yields null, although the
claim requires the walk to proceed to arrest_date and return its instant. -/
theorem C3_eval_windows_stops_cex :
    evalSourcesBookingDate (SOURCE_DATE_FIELDS "galveston") docC3 = none
  ∧ parse_date_any ((pyDocGet docC3 "arrest_date").getD .null) = some ⟨1704412800, true⟩
  ∧ parse_date_any ((pyDocGet docC3 "booked_at").getD .null) = none :=
  ⟨by decide, by decide, by decide⟩

theorem matchNumCore_none (cs : List Char) (h : ∀ c ∈ cs, c.isDigit = false) :
    matchNumCore cs = none := by
  cases cs with
  | nil => rfl
  | cons c rest => simp [matchNumCore, h c (by simp)]

theorem matchNumAt_none (cs : List Char) (h : ∀ c ∈ cs, c.isDigit = false) :
    matchNumAt cs = none := by
  cases cs with
  | nil => rfl
  | cons c rest =>
    simp only [matchNumAt]
    split_ifs
    · rw [matchNumCore_none rest (fun c2 hc2 => h c2 (by simp [hc2]))]; rfl
    · exact matchNumCore_none _ h

theorem reFirstNumber_none (cs : List Char) (h : ∀ c ∈ cs, c.isDigit = false) :
    reFirstNumber cs = none := by
  induction cs with
  | nil => rfl
  | cons c rest ih =>
    simp only [reFirstNumber, matchNumAt_none _ h]
    exact ih (fun c2 hc2 => h c2 (by simp [hc2]))

mutual
theorem extract_none_of_noSignal : ∀ v : JVal, noNumericSignal v = true →
    extract_first_numeric v = none
  | .null, _ => rfl
  | .bool _, h => by simp [noNumericSignal] at h
  | .int _, h => by simp [noNumericSignal] at h
  | .float _, h => by simp [noNumericSignal] at h
  | .dt _ _, h => by simp [noNumericSignal] at h
  | .oid _, _ => rfl
  | .str s, h => by
    simp only [noNumericSignal, List.all_eq_true, Bool.not_eq_eq_eq_not, Bool.not_true] at h
    simp only [extract_first_numeric, reFirstNumber_none s.data h]
  | .list xs, h => by
    simp only [noNumericSignal] at h
    simpa only [extract_first_numeric] using extractL_none_of_noSignal xs h
  | .obj kvs, h => by
    simp only [noNumericSignal, Bool.and_eq_true, List.all_eq_true] at h
    simp only [extract_first_numeric]
    exact List.findSome?_eq_none_iff.mpr
      (fun k hk => Option.isNone_iff_eq_none.mp (h.2 k hk))
theorem extractL_none_of_noSignal : ∀ xs : List JVal, noNumericSignalL xs = true →
    extractFirstNumericL xs = none
  | [], _ => rfl
  | x :: xs, h => by
    simp only [noNumericSignalL, Bool.and_eq_true] at h
    simp only [extractFirstNumericL, extract_none_of_noSignal x h.1]
    exact extractL_none_of_noSignal xs h.2
end

/-- C6 as amended: numeric extraction maps the string dollar 1,234.50 to
1234.5 (first signed decimal number, thousands separators stripped), maps
the extended-JSON wrapper numberInt 7 to 7.0, maps the list of the string a
and the wrapper numberDouble 2.5 to 2.5 (elements tried recursively), and
maps to null every input without a numeric signal: no digit in any of its
strings, no numeric leaf — booleans are Python ints, so False extracts as
0.0 rather than null — and no extended-JSON wrapper binding whose payload
the float builtin accepts (such as an infinity or NaN spelling). -/
theorem C6_numeric_extraction :
    extract_first_numeric (.str "$1,234.50") = some (.fin (1234.5 : ℚ))
  ∧ extract_first_numeric (.obj [("$numberInt", .str "7")]) = some (.fin 7)
  ∧ extract_first_numeric (.list [.str "a", .obj [("$numberDouble", .str "2.5")]])
      = some (.fin (2.5 : ℚ))
  ∧ (∀ v : JVal, noNumericSignal v = true → extract_first_numeric v = none) := by
  have b1 : (mkRat 2469 2 : ℚ) = 1234.5 := by
    rw [Rat.mkRat_eq_divInt, Rat.divInt_eq_div]; norm_num
  have b2 : (mkRat 5 2 : ℚ) = 2.5 := by
    rw [Rat.mkRat_eq_divInt, Rat.divInt_eq_div]; norm_num
  refine ⟨?_, by decide, ?_, extract_none_of_noSignal⟩
  · rw [← b1]; decide
  · rw [← b2]; decide

/-- C6 witness: a list holding only digit-free strings, a null and a
digit-free object extracts to null. -/
theorem C6_numeric_extraction_witness :
    noNumericSignal (.list [.str "abc", .null, .obj [("note", .str "no digits here")]]) = true
  ∧ extract_first_numeric (.list [.str "abc", .null, .obj [("note", .str "no digits here")]])
      = none :=
  ⟨by decide,
   C6_numeric_extraction.2.2.2 (.list [.str "abc", .null, .obj [("note", .str "no digits here")]])
     (by decide)⟩

/-- C6 counterexample to the claim as stated: the boolean False contains no
digit (its textual form has none), yet numeric extraction returns 0.0 for
it, because Python treats bools as ints; so a digit-free input does not
always map to null. -/
theorem C6_bool_digit_free_cex :
    extract_first_numeric (.bool false) = some (.fin 0)
  ∧ (pyStr (.bool false)).data.all (fun c => !c.isDigit) = true :=
  ⟨by decide, by decide⟩

theorem mem_rule1 {p : Params} {st : FieldState} {rs0 : List Reason} {r : Reason}
    (h : r ∈ (rule1 p st rs0).2) :
    r ∈ rs0 ∨ (r = .boolField ∧ p.minCount ≤ counterGet st.types "bool") := by
  unfold rule1 at h
  split at h <;> simp_all

theorem mem_rule2 {p : Params} {uv : Option Nat} {ur : Option ℚ} {x : Bool × List Reason}
    {r : Reason} (h : r ∈ (rule2 p uv ur x).2) :
    r ∈ x.2 ∨ r = .uniqueAbs ∨ r = .uniqueRatioLow := by
  unfold rule2 at h
  split at h
  · exact Or.inl h
  · split at h
    · split at h
      · simp only [List.mem_append, List.mem_singleton] at h
        tauto
      · split at h
        · split at h
          · simp only [List.mem_append, List.mem_singleton] at h
            tauto
          · exact Or.inl h
        · exact Or.inl h
    · exact Or.inl h

theorem mem_rule3 {p : Params} {st : FieldState} {uv : Option Nat} {x : Bool × List Reason}
    {r : Reason} (h : r ∈ (rule3 p st uv x).2) :
    r ∈ x.2 ∨ (r = .smallIntCode ∧ p.minCount ≤ counterGet st.types "int"
      ∧ p.smallIntAsCat = true) := by
  unfold rule3 at h
  split at h
  · rename_i hcond
    split at h
    · split at h <;> simp_all
    · exact Or.inl h
  · exact Or.inl h

theorem mem_rule4 {path : String} {x : Bool × List Reason} {r : Reason}
    (h : r ∈ (rule4 path x).2) :
    r ∈ x.2 ∨ r = .overriddenByIdentifierName := by
  unfold rule4 at h
  split at h
  · simp only [] at h
    split at h <;> simp_all
  · exact Or.inl h

theorem rule2_uv_none {p : Params} {ur : Option ℚ} {x : Bool × List Reason} :
    rule2 p none ur x = x := by
  unfold rule2
  split <;> rfl

theorem rule3_uv_none {p : Params} {st : FieldState} {x : Bool × List Reason} :
    rule3 p st none x = x := by
  unfold rule3
  split <;> rfl

/-- C7 counterexample to the claim as stated: a field occurring once in a
one-document sample (occurrence count 1, far below the default min_count of
25) is still decided categorical by the absolute unique-count rule, because
only the boolean rule and the small-int rule consult min_count. -/
theorem C7_low_count_categorical_cex :
    analyzeDocs [.obj [("x", .str "a")]] = [("x", stC7)]
  ∧ stC7.docsWithField = 1
  ∧ stC7.nonNullCount = 1
  ∧ 1 < defaultParams.minCount
  ∧ (decide_categorical defaultParams "x" stC7).categorical = true
  ∧ (decide_categorical defaultParams "x" stC7).reasons = [.uniqueAbs] :=
  ⟨by decide, by decide, by decide, by decide, by decide, by decide⟩

/-- C7 as amended: min_count gates only the boolean rule and the small-int
rule — a bool-field reason implies at least min_count bool occurrences, and
a small-int reason implies at least min_count int occurrences with the
detection flag on; the absolute unique-count and unique-ratio rules apply
regardless of the occurrence count (the counterexample exhibits a
single-occurrence field decided categorical). -/
theorem C7_min_count_gates_bool_and_smallint (p : Params) (path : String) (st : FieldState) :
    (Reason.boolField ∈ (decide_categorical p path st).reasons →
      p.minCount ≤ counterGet st.types "bool")
  ∧ (Reason.smallIntCode ∈ (decide_categorical p path st).reasons →
      p.minCount ≤ counterGet st.types "int" ∧ p.smallIntAsCat = true) := by
  constructor
  · intro hmem
    simp only [decide_categorical] at hmem
    rcases mem_rule4 hmem with h4 | h4
    · rcases mem_rule3 h4 with h3 | h3
      · rcases mem_rule2 h3 with h2 | h2 | h2
        · rcases mem_rule1 h2 with h1 | h1
          · split at h1 <;> simp_all
          · exact h1.2
        · cases h2
        · cases h2
      · cases h3.1
    · cases h4
  · intro hmem
    simp only [decide_categorical] at hmem
    rcases mem_rule4 hmem with h4 | h4
    · rcases mem_rule3 h4 with h3 | h3
      · rcases mem_rule2 h3 with h2 | h2 | h2
        · rcases mem_rule1 h2 with h1 | h1
          · split at h1 <;> simp_all
          · cases h1.1
        · cases h2
        · cases h2
      · exact h3.2
    · cases h4

theorem bondGo_nonneg (doc : JVal) :
    ∀ fields : List String,
      (∀ k ∈ fields, ∀ v ∈ numericValsOf doc k, v.isNonneg = true) →
      deriveBondGo doc fields = none
        ∨ ∃ f, deriveBondGo doc fields = some f ∧ f.isNonneg = true := by
  intro fields
  induction fields with
  | nil => intro; exact Or.inl rfl
  | cons k ks ih =>
    intro h
    by_cases hk : (numericValsOf doc k).isEmpty = true
    · simp only [deriveBondGo, hk, if_true]
      exact ih (fun k2 hm => h k2 (by simp [hm]))
    · simp only [deriveBondGo, hk, if_false]
      exact Or.inr ⟨PFloat.sumList (numericValsOf doc k), rfl,
        PFloat.sumList_nonneg _ (h k (by simp))⟩

/-- C8 counterexample to the claim as stated: for the harris_bond profile, a
document carrying the raw bond amount -100 derives the negative float -100;
the derivation never clamps. -/
theorem C8_negative_bond_cex :
    derive_bond_amount "harris_bond" (.obj [("bond_amount", .int (-100))])
      = some (.fin (-100))
  ∧ (PFloat.fin (-100)).isNonneg = false :=
  ⟨by decide, by decide⟩

/-- C8 as amended: the derived money amount is null or the float sum of the
extracted numerics of the first productive candidate field, and it is
non-negative whenever every numeric extracted from the candidate fields of
the document is non-negative; the code does not clamp, so a negative raw
value propagates (see the counterexample). -/
theorem C8_money_nonneg_when_inputs_nonneg (c : String) (doc : JVal)
    (h : ∀ k ∈ BOND_FIELDS_BY_COLLECTION c, ∀ v ∈ numericValsOf doc k, v.isNonneg = true) :
    derive_bond_amount c doc = none
  ∨ ∃ f, derive_bond_amount c doc = some f ∧ f.isNonneg = true := by
  rw [derive_bond_amount]
  exact bondGo_nonneg doc _ h

/-- C8 witness: for the harris_bond profile, a document with the bond amount
350 satisfies the non-negativity hypothesis, so the derived amount is null
or a non-negative float (it is in fact 350). -/
theorem C8_money_nonneg_witness :
    (derive_bond_amount "harris_bond" docC8 = none
      ∨ ∃ f, derive_bond_amount "harris_bond" docC8 = some f ∧ f.isNonneg = true)
  ∧ derive_bond_amount "harris_bond" docC8 = some (.fin 350) :=
  ⟨C8_money_nonneg_when_inputs_nonneg "harris_bond" docC8 (by decide), by decide⟩

theorem updateField_flagged {st : FieldState} (v : JVal) (h : st.tooManyUniques = true) :
    (updateField st v).tooManyUniques = true ∧ (updateField st v).values = st.values := by
  simp [updateField, h]

theorem foldl_updateField_flagged (vs : List JVal) :
    ∀ st : FieldState, st.tooManyUniques = true →
      (vs.foldl updateField st).tooManyUniques = true
    ∧ (vs.foldl updateField st).values = st.values := by
  induction vs with
  | nil => exact fun st h => ⟨h, rfl⟩
  | cons v vs ih =>
    intro st h
    have h1 := updateField_flagged v h
    simp only [List.foldl_cons]
    refine ⟨(ih (updateField st v) h1.1).1, ?_⟩
    rw [(ih (updateField st v) h1.1).2, h1.2]

/-- C9: once a field crosses the 5000-distinct-value guardrail the tracked
value set is cleared and the too-many-uniques flag is set; the flag and the
cleared set then survive every later update of the run (no later value
resumes counting), and in the verdict such a field has null unique count and
null unique ratio, and none of the unique-count, unique-ratio or small-int
rules fires for it. -/
theorem C9_unique_cap_irreversible :
    (∀ (st : FieldState) (vs : List JVal), st.tooManyUniques = true →
        (vs.foldl updateField st).tooManyUniques = true
      ∧ (vs.foldl updateField st).values = st.values)
  ∧ (∀ (st : FieldState) (v : JVal), st.tooManyUniques = false → isComplexKind v = false →
        5000 < (bump st.values (normValue v)).length →
        (updateField st v).tooManyUniques = true ∧ (updateField st v).values = [])
  ∧ (∀ (p : Params) (path : String) (st : FieldState), st.tooManyUniques = true →
        (decide_categorical p path st).uniqueValues = none
      ∧ (decide_categorical p path st).uniqueRatio = none
      ∧ Reason.uniqueAbs ∉ (decide_categorical p path st).reasons
      ∧ Reason.uniqueRatioLow ∉ (decide_categorical p path st).reasons
      ∧ Reason.smallIntCode ∉ (decide_categorical p path st).reasons) := by
  refine ⟨fun st vs h => foldl_updateField_flagged vs st h, ?_, ?_⟩
  · intro st v hflag hcomplex hlen
    simp [updateField, hflag, hcomplex, hlen]
  · intro p path st hflag
    refine ⟨by simp [decide_categorical, hflag], by simp [decide_categorical, hflag], ?_, ?_, ?_⟩
    all_goals
      intro hm
      simp only [decide_categorical, hflag, if_true, rule2_uv_none, rule3_uv_none] at hm
      rcases mem_rule4 hm with h4 | h4
      · rcases mem_rule1 h4 with h1 | h1
        · simp at h1
        · cases h1.1
      · cases h4

theorem mkNormVals_length (n : Nat) : (mkNormVals n).length = n := by
  unfold mkNormVals
  rw [List.length_map, List.length_range]

theorem bump_append_of_fresh {α : Type} [DecidableEq α] (m : List (α × Nat)) (k : α)
    (h : ∀ kv ∈ m, kv.1 ≠ k) : bump m k = m ++ [(k, 1)] := by
  induction m with
  | nil => rfl
  | cons kv m ih =>
    have hk : kv.1 ≠ k := h kv (by simp)
    obtain ⟨k2, c⟩ := kv
    simp only [bump, if_neg hk, List.cons_append, List.cons.injEq, true_and]
    exact ih (fun kv2 hm => h kv2 (by simp [hm]))

theorem mkNormVals_keys_num (n : Nat) : ∀ kv ∈ mkNormVals n, ∀ s, kv.1 ≠ NormVal.str s := by
  intro kv hm s
  simp only [mkNormVals, List.mem_map] at hm
  obtain ⟨i, _, rfl⟩ := hm
  simp

/-- C9 witness: a state already past the cap keeps its flag and its cleared
value set across three further updates; a state holding exactly 5000
distinct values trips the guardrail on the next fresh value, clearing the
set and raising the flag; and a flagged state receives a null unique count
with no unique-count reason in its verdict. -/
theorem C9_unique_cap_irreversible_witness :
    (([JVal.str "later", JVal.int 7, JVal.bool true].foldl updateField stFlagged).tooManyUniques
      = true)
  ∧ (([JVal.str "later", JVal.int 7, JVal.bool true].foldl updateField stFlagged).values
      = stFlagged.values)
  ∧ (updateField stTrig (.str "zz")).tooManyUniques = true
  ∧ (updateField stTrig (.str "zz")).values = []
  ∧ (decide_categorical defaultParams "f" stFlagged).uniqueValues = none
  ∧ Reason.uniqueAbs ∉ (decide_categorical defaultParams "f" stFlagged).reasons := by
  have hlen : 5000 < (bump stTrig.values (normValue (.str "zz"))).length := by
    have hfresh : ∀ kv ∈ stTrig.values, kv.1 ≠ normValue (.str "zz") := by
      intro kv hm
      exact mkNormVals_keys_num 5000 kv hm "zz"
    rw [show stTrig.values = mkNormVals 5000 from rfl] at hfresh ⊢
    rw [bump_append_of_fresh _ _ hfresh, List.length_append, mkNormVals_length]
    simp
  refine ⟨(C9_unique_cap_irreversible.1 stFlagged _ rfl).1,
    (C9_unique_cap_irreversible.1 stFlagged _ rfl).2,
    (C9_unique_cap_irreversible.2.1 stTrig (.str "zz") rfl rfl hlen).1,
    (C9_unique_cap_irreversible.2.1 stTrig (.str "zz") rfl rfl hlen).2,
    (C9_unique_cap_irreversible.2.2 defaultParams "f" stFlagged rfl).1,
    (C9_unique_cap_irreversible.2.2 defaultParams "f" stFlagged rfl).2.2.1⟩

mutual
theorem marker_mem_flatten : ∀ (v : JVal) (pre p : String),
    p ∈ listPaths v pre → (p ++ "[]", JVal.bool true) ∈ flatten v pre
  | .obj kvs, pre, p, h => by
    simp only [listPaths] at h
    simpa only [flatten] using marker_mem_flattenObj kvs pre p h
  | .list xs, pre, p, h => by
    simp only [listPaths, List.mem_cons] at h
    rcases h with rfl | h
    · simp [flatten]
    · simp only [flatten, List.mem_append]
      exact Or.inl (marker_mem_flattenList xs 0 pre p h)
  | .null, _, _, h => by simp [listPaths] at h
  | .bool _, _, _, h => by simp [listPaths] at h
  | .int _, _, _, h => by simp [listPaths] at h
  | .float _, _, _, h => by simp [listPaths] at h
  | .str _, _, _, h => by simp [listPaths] at h
  | .dt _ _, _, _, h => by simp [listPaths] at h
  | .oid _, _, _, h => by simp [listPaths] at h
theorem marker_mem_flattenObj : ∀ (kvs : List (String × JVal)) (pre p : String),
    p ∈ listPathsObj kvs pre → (p ++ "[]", JVal.bool true) ∈ flattenObj kvs pre
  | [], _, _, h => by simp [listPathsObj] at h
  | (k, v) :: kvs, pre, p, h => by
    simp only [listPathsObj, List.mem_append] at h
    simp only [flattenObj, List.mem_append]
    rcases h with h | h
    · exact Or.inl (marker_mem_flatten v (joinKey pre k) p h)
    · exact Or.inr (marker_mem_flattenObj kvs pre p h)
theorem marker_mem_flattenList : ∀ (xs : List JVal) (i : Nat) (pre p : String),
    p ∈ listPathsList xs i pre → (p ++ "[]", JVal.bool true) ∈ flattenList xs i pre
  | [], _, _, _, h => by simp [listPathsList] at h
  | x :: xs, i, pre, p, h => by
    simp only [listPathsList, List.mem_append] at h
    simp only [flattenList, List.mem_append]
    rcases h with h | h
    · exact Or.inl (marker_mem_flatten x (pre ++ "[" ++ Nat.repr i ++ "]") p h)
    · exact Or.inr (marker_mem_flattenList xs (i + 1) pre p h)
end

theorem dictGet_of_any_false (m : List (String × JVal)) (k : String)
    (h : ¬ m.any (fun kv => kv.1 = k) = true) : dictGet m k = none := by
  induction m with
  | nil => rfl
  | cons kv m ih =>
    simp only [List.any_cons, Bool.or_eq_true, decide_eq_true_eq, not_or] at h
    simp only [dictGet, if_neg h.1]
    exact ih (by simp only [List.any_eq_true, decide_eq_true_eq]; simpa using h.2)

theorem dictGet_append (m1 m2 : List (String × JVal)) (k : String) :
    dictGet (m1 ++ m2) k =
      match dictGet m1 k with
      | some v => some v
      | none => dictGet m2 k := by
  induction m1 with
  | nil => rfl
  | cons kv m1 ih =>
    obtain ⟨k2, v2⟩ := kv
    by_cases hk : k2 = k
    · simp [dictGet, hk]
    · simp only [List.cons_append, dictGet, if_neg hk]
      exact ih

theorem dictGet_map_replace (m : List (String × JVal)) (k : String) (v : JVal) :
    dictGet (m.map (fun kv => if kv.1 = k then (k, v) else kv)) k =
      if m.any (fun kv => kv.1 = k) then some v else none := by
  induction m with
  | nil => rfl
  | cons kv m ih =>
    obtain ⟨k2, v2⟩ := kv
    simp only [List.map_cons]
    by_cases hk : k2 = k
    · rw [if_pos (show (k2, v2).1 = k from hk)]
      simp [dictGet, hk]
    · rw [if_neg (show ¬ (k2, v2).1 = k from hk)]
      simp only [dictGet, if_neg hk, ih, List.any_cons, decide_eq_false hk, Bool.false_or]

theorem dictGet_map_other (m : List (String × JVal)) (k : String) (v : JVal) (k2 : String)
    (hne : k2 ≠ k) :
    dictGet (m.map (fun kv => if kv.1 = k then (k, v) else kv)) k2 = dictGet m k2 := by
  induction m with
  | nil => rfl
  | cons kv m ih =>
    obtain ⟨k3, v3⟩ := kv
    simp only [List.map_cons]
    by_cases hk : k3 = k
    · rw [if_pos (show (k3, v3).1 = k from hk)]
      have ha : ¬ (k = k2) := fun hx => hne hx.symm
      have hb : ¬ (k3 = k2) := fun hx => hne (hk.symm.trans hx).symm
      simp [dictGet, ha, hb, ih]
    · rw [if_neg (show ¬ (k3, v3).1 = k from hk)]
      by_cases hk2 : k3 = k2
      · simp [dictGet, hk2]
      · simp [dictGet, hk2, ih]

theorem dictGet_insert_self (m : List (String × JVal)) (k : String) (v : JVal) :
    dictGet (pyDictInsert m k v) k = some v := by
  unfold pyDictInsert
  split
  · rw [dictGet_map_replace]
    simp_all
  · rename_i h
    rw [dictGet_append, dictGet_of_any_false m k h]
    simp [dictGet]

theorem dictGet_insert_other (m : List (String × JVal)) (k : String) (v : JVal) (k2 : String)
    (hne : k2 ≠ k) : dictGet (pyDictInsert m k v) k2 = dictGet m k2 := by
  unfold pyDictInsert
  split
  · exact dictGet_map_other m k v k2 hne
  · rw [dictGet_append]
    cases hm : dictGet m k2 with
    | some w => simp [hm]
    | none =>
      have hkk2 : ¬ (k = k2) := fun hx => hne hx.symm
      simp [hm, dictGet, hkk2]

theorem countKey_append (a b : List (String × JVal)) (k : String) :
    countKey (a ++ b) k = countKey a k + countKey b k := by
  induction a with
  | nil => simp [countKey]
  | cons kv a ih =>
    simp only [List.cons_append]
    show (if kv.1 = k then 1 else 0) + countKey (a ++ b) k
      = ((if kv.1 = k then 1 else 0) + countKey a k) + countKey b k
    rw [ih]
    omega

theorem foldl_insert_no_key (k : String) :
    ∀ (items : List (String × JVal)) (m : List (String × JVal)), countKey items k = 0 →
      dictGet (items.foldl (fun m2 kv => pyDictInsert m2 kv.1 kv.2) m) k = dictGet m k := by
  intro items
  induction items with
  | nil => intro m _; rfl
  | cons kv items ih =>
    intro m h
    simp only [countKey] at h
    have hne : kv.1 ≠ k := by
      intro hx; rw [if_pos hx] at h; omega
    have ht : countKey items k = 0 := by
      rw [if_neg hne] at h; omega
    simp only [List.foldl_cons]
    rw [ih (pyDictInsert m kv.1 kv.2) ht]
    exact dictGet_insert_other m kv.1 kv.2 k (fun hx => hne hx.symm)

theorem pyDict_lookup_unique (items : List (String × JVal)) (k : String) (v : JVal)
    (hmem : (k, v) ∈ items) (hcount : countKey items k = 1) :
    dictGet (pyDict items) k = some v := by
  obtain ⟨s, t, rfl⟩ := List.append_of_mem hmem
  rw [countKey_append] at hcount
  have e : countKey ((k, v) :: t) k = 1 + countKey t k := by
    show (if (k, v).1 = k then 1 else 0) + countKey t k = 1 + countKey t k
    rw [if_pos rfl]
  rw [e] at hcount
  have hs : countKey s k = 0 := by omega
  have ht : countKey t k = 0 := by omega
  rw [pyDict, List.foldl_append, List.foldl_cons]
  rw [foldl_insert_no_key k t _ ht]
  exact dictGet_insert_self _ k v

/-- C10 as amended: at every path where a document holds a list, flattening
emits the synthetic marker pair (path plus square brackets, True) among its
items, and an empty list contributes exactly that one pair and no indexed
paths; in the final Python dict the marker path carries True provided no
other part of the document flattens to the same path (a literal key ending
in square brackets appearing later in iteration order overwrites it — see
the counterexample). -/
theorem C10_list_marker :
    (∀ (doc : JVal) (p : String), p ∈ listPaths doc "" →
        ((p ++ "[]", JVal.bool true) ∈ flatten doc ""
      ∧ (countKey (flatten doc "") (p ++ "[]") = 1 →
          dictGet (pyDict (flatten doc "")) (p ++ "[]") = some (.bool true))))
  ∧ (∀ q : String, flatten (.list []) q = [(q ++ "[]", .bool true)]) := by
  refine ⟨fun doc p h => ?_, fun q => rfl⟩
  have hmem := marker_mem_flatten doc "" p h
  exact ⟨hmem, fun hcount => pyDict_lookup_unique _ _ _ hmem hcount⟩

/-- C10 witness: for the document with the single binding a to the list
holding 1, the path a holds a list, the marker pair is among the flattened
items, and the final dict maps the marker path to True. -/
theorem C10_list_marker_witness :
    ("a" ++ "[]", JVal.bool true) ∈ flatten docC10w ""
  ∧ dictGet (pyDict (flatten docC10w "")) ("a" ++ "[]") = some (.bool true)
  ∧ flatten (.list []) "b" = [("b" ++ "[]", .bool true)] :=
  ⟨(C10_list_marker.1 docC10w "a" (by decide)).1,
   (C10_list_marker.1 docC10w "a" (by decide)).2 (by decide),
   C10_list_marker.2 "b"⟩

/-- C10 counterexample to the claim as stated: in the document binding a to
the empty list and then the literal key a-brackets to 0, the path a holds a
list, yet the flattened dict maps the marker path to the integer 0, not to
True — the later literal binding overwrites the emitted marker, so
downstream statistics see an int occurrence there, not a boolean. -/
theorem C10_marker_overwrite_cex :
    "a" ∈ listPaths docC10c ""
  ∧ dictGet (pyDict (flatten docC10c "")) "a[]" = some (.int 0)
  ∧ JVal.int 0 ≠ JVal.bool true :=
  ⟨by decide, rfl, by simp⟩

/-- C7 witness: a field with 25 boolean occurrences triggers the bool rule,
so the theorem yields its min_count bound; a field with 30 int occurrences
over five distinct codes under small-int parameters triggers the small-int
rule, yielding both the int bound and the enablement flag. -/
theorem C7_min_count_gates_witness :
    defaultParams.minCount ≤ counterGet stBoolC7.types "bool"
  ∧ (smallIntParamsC7.minCount ≤ counterGet stIntC7.types "int"
      ∧ smallIntParamsC7.smallIntAsCat = true) :=
  ⟨(C7_min_count_gates_bool_and_smallint defaultParams "flag" stBoolC7).1 (by decide),
   (C7_min_count_gates_bool_and_smallint smallIntParamsC7 "code" stIntC7).2 (by decide)⟩
